import Mathlib

/-!
Verification of the deepsearch chat application (agent loop, cache layer,
bulk crawler, chat persistence and route handlers).

Embedding conventions:
* JavaScript strings are modelled as Lean `String`; `s.slice(0, n)` is
  modelled as taking the first `n` characters of the underlying data.
* Asynchronous functions are modelled as pure functions; external
  collaborators (the fetch pipeline, the search provider, the model) are
  abstracted as function parameters (oracles).
* Database and cache state is passed explicitly; a thrown exception is
  modelled as an error value returned together with the state at the
  point of the throw.
-/

/-- JS `s.slice(0, n)`: the first `n` characters of `s`. -/
def sliceTo (s : String) (n : Nat) : String := ⟨s.data.take n⟩

/- ======================= Bulk crawler (spec §4.2) ======================= -/

/-- Per-URL crawl outcome: extracted content on success, an error message on
failure (mirrors the `CrawlResponse` shape consumed by the route handler). -/
inductive CrawlResult where
  | success (data : String)
  | failure (error : String)
deriving DecidableEq

/-- Whether the per-URL crawl succeeded. -/
def CrawlResult.isSuccess : CrawlResult → Bool
  | .success _ => true
  | .failure _ => false

/-- The `data` field of a crawl result; `""` stands for the (unreachable in the
guarded uses) access of `data` on a failed result. -/
def CrawlResult.dataD : CrawlResult → String
  | .success d => d
  | .failure _ => ""

/-- One entry of the bulk-crawl result list: the url paired with its result
(the `{ url, result }` records destructured by the route handler). -/
structure CrawlOutcome where
  url : String
  result : CrawlResult
deriving DecidableEq

/-- The batch returned by the bulk crawler: per-URL outcomes plus the
aggregate success flag. -/
structure CrawlBatch where
  results : List CrawlOutcome
  success : Bool
deriving DecidableEq

/-- Modelled from the spec: `bulkCrawlWebsites` lives in the module
`~/scraper`, which is absent from the source tree (only its caller is
present). Per spec §4.2, the per-URL fetch/timeout/retry pipeline produces
one outcome per URL and never raises; it is abstracted here as the oracle
`fetch`. The batch preserves the input order of `urls`, contains exactly one
outcome per input URL, and `success` is the conjunction of the per-outcome
success flags. -/
def bulkCrawlWebsites (fetch : String → CrawlResult) (urls : List String) :
    CrawlBatch :=
  let results := urls.map (fun u => { url := u, result := fetch u })
  { results := results, success := results.all (fun o => o.result.isSuccess) }

/- ============ scrapePages tool executor (day-3 route.ts 204-242) ============ -/

/-- One record of the scrape tool's output: `{ url, content, success }`. -/
structure ScrapeRecord where
  url : String
  content : String
  success : Bool
deriving DecidableEq

/-- The function passed to `cacheWithRedis` by the `scrapePages` tool executor
(day-3 `route.ts` lines 213-237): crawl all urls, then map the outcomes to
`{ url, content, success }` records, prefixing failures with `"Error: "`. -/
def scrapePagesFn (fetch : String → CrawlResult) (urlsToScrape : List String) :
    List ScrapeRecord :=
  let result := bulkCrawlWebsites fetch urlsToScrape
  if result.success then
    result.results.map (fun o =>
      { url := o.url, content := o.result.dataD, success := true })
  else
    result.results.map (fun o =>
      { url := o.url,
        content :=
          match o.result with
          | .success d => d
          | .failure e => "Error: " ++ e,
        success := o.result.isSuccess })

/-- If the batch's aggregate flag is set, every fetched URL succeeded. -/
theorem all_fetch_success_of_batch_success (fetch : String → CrawlResult)
    (urls : List String)
    (h : (bulkCrawlWebsites fetch urls).success = true) :
    ∀ u ∈ urls, (fetch u).isSuccess = true := by
  intro u hu
  simp only [bulkCrawlWebsites, List.all_eq_true, List.mem_map] at h
  exact h _ ⟨u, hu, rfl⟩

/-- C1: for every input URL list, the bulk crawl returns a batch with exactly
one per-URL outcome per input URL, positionally aligned to the input list
(the i-th outcome carries the i-th URL), and the overall success flag is true
exactly when every outcome succeeded. -/
theorem c1_bulk_crawl_batch_shape (fetch : String → CrawlResult)
    (urls : List String) :
    (bulkCrawlWebsites fetch urls).results.length = urls.length ∧
    (∀ i : Nat,
      ((bulkCrawlWebsites fetch urls).results[i]?).map (fun o => o.url) =
        urls[i]?) ∧
    ((bulkCrawlWebsites fetch urls).success = true ↔
      ∀ o ∈ (bulkCrawlWebsites fetch urls).results,
        o.result.isSuccess = true) := by
  refine ⟨by simp [bulkCrawlWebsites], fun i => ?_, ?_⟩
  · simp [bulkCrawlWebsites, List.getElem?_map]
    cases urls[i]? <;> simp
  · simp [bulkCrawlWebsites, List.all_eq_true]

/-- Closed form of the scrape computation: one record per input URL, in
input order, with the `"Error: "` prefix on failures. -/
theorem scrapePagesFn_eq (fetch : String → CrawlResult) (urls : List String) :
    scrapePagesFn fetch urls =
      urls.map (fun u =>
        { url := u,
          content :=
            match fetch u with
            | .success d => d
            | .failure e => "Error: " ++ e,
          success := (fetch u).isSuccess }) := by
  unfold scrapePagesFn
  cases hb : (bulkCrawlWebsites fetch urls).success with
  | false =>
    rw [if_neg (by simp [hb])]
    simp only [bulkCrawlWebsites, List.map_map]
    rfl
  | true =>
    rw [if_pos hb]
    have hall := all_fetch_success_of_batch_success fetch urls hb
    simp only [bulkCrawlWebsites, List.map_map]
    refine List.map_congr_left ?_
    intro u hu
    have hs := hall u hu
    cases hfu : fetch u with
    | success d =>
      simp [Function.comp, hfu, CrawlResult.dataD, CrawlResult.isSuccess]
    | failure e =>
      rw [hfu] at hs
      simp [CrawlResult.isSuccess] at hs

/-- C3: the scrape tool's underlying computation returns exactly one record
`{url, content, success}` per input URL, in input order: `content` is the
extracted text when `success` is true and the error message prefixed with
`"Error: "` when `success` is false; no failed URL is dropped. -/
theorem c3_scrape_records_per_url (fetch : String → CrawlResult)
    (urls : List String) :
    (scrapePagesFn fetch urls).length = urls.length ∧
    ∀ i : Nat,
      (scrapePagesFn fetch urls)[i]? =
        (urls[i]?).map (fun u =>
          { url := u,
            content :=
              match fetch u with
              | .success d => d
              | .failure e => "Error: " ++ e,
            success := (fetch u).isSuccess }) := by
  rw [scrapePagesFn_eq]
  exact ⟨List.length_map _ _, fun i => List.getElem?_map _ _ _⟩

/- ================== Cache layer (spec §4.1, `cacheWithRedis`) ================== -/

/-- A cache entry: the stored value together with its expiry time
(`SET key value EX ttl` semantics). -/
structure CacheEntry (V : Type) where
  value : V
  expiresAt : Nat
deriving DecidableEq

/-- The Redis-backed store, modelled as an association list from keys to
entries; the most recent write for a key shadows older ones. -/
def CacheStore (V : Type) : Type := List (String × CacheEntry V)

/-- `GET key` at time `now`: a stored value is visible only before its
expiry. -/
def cacheGet {V : Type} (store : CacheStore V) (key : String) (now : Nat) :
    Option V :=
  (store.lookup key).bind
    (fun e => if now < e.expiresAt then some e.value else none)

/-- Result of one call through the memoized wrapper: the value (or the
propagated error), the store afterwards, and whether the underlying
operation was invoked. -/
structure CacheCallResult (V : Type) where
  result : Except String V
  store : CacheStore V
  invokedFn : Bool

/-- Modelled from the spec: `cacheWithRedis` lives in `~/server/redis/redis`,
which is absent from the source tree (only its callers are present). Per spec
§4.1: the key is the operation name plus the deterministic serialization of
the arguments; a hit returns the stored value without invoking `fn`; a miss
invokes `fn`, stores the result under the key with a fixed TTL on success,
and on failure propagates the error with nothing cached. -/
def cacheWithRedis {A V : Type} (opName : String) (serialize : A → String)
    (ttl : Nat) (fn : A → Except String V) (store : CacheStore V) (now : Nat)
    (args : A) : CacheCallResult V :=
  let key := opName ++ ":" ++ serialize args
  match cacheGet store key now with
  | some v => { result := .ok v, store := store, invokedFn := false }
  | none =>
    match fn args with
    | .ok v =>
      { result := .ok v,
        store := (key, { value := v, expiresAt := now + ttl }) :: store,
        invokedFn := true }
    | .error e => { result := .error e, store := store, invokedFn := true }

/-- A key absent (or already expired) at time `t1` is still absent at any
later time `t2`: expiry only moves entries out of view. -/
theorem cacheGet_none_mono {V : Type} (store : CacheStore V) (key : String)
    (t1 t2 : Nat) (h12 : t1 ≤ t2) (h : cacheGet store key t1 = none) :
    cacheGet store key t2 = none := by
  unfold cacheGet at h ⊢
  cases hl : store.lookup key with
  | none => simp
  | some e =>
    rw [hl] at h
    simp only [Option.some_bind] at h ⊢
    split at h
    · simp at h
    · rename_i hlt
      exact if_neg (fun hc => hlt (lt_of_le_of_lt h12 hc))

/- ============ search tool executor (day-3 route.ts 186-203) ============ -/

/-- The cancellation token threaded from the agent loop's current step into
the provider call (`abortSignal`). -/
structure AbortSignal where
  aborted : Bool
deriving DecidableEq

/-- One organic result from the search provider. -/
structure SerperOrganic where
  title : String
  link : String
  snippet : String
  date : Option String
deriving DecidableEq

/-- The request sent to the search provider: query plus result count. -/
structure SerperRequest where
  q : String
  num : Nat
deriving DecidableEq

/-- The provider's response (the fields the executor consumes). -/
structure SerperResponse where
  organic : List SerperOrganic
deriving DecidableEq

/-- One record of the search tool's output: `{title, link, snippet, date?}`. -/
structure SearchResult where
  title : String
  link : String
  snippet : String
  date : Option String
deriving DecidableEq

/-- The `searchWeb` tool executor (day-3 `route.ts` lines 190-202): calls
`searchSerper` with `{ q: query, num: 10 }` and the step's `abortSignal`, then
maps the organic results to `{title, link, snippet, date}` records. The
provider `searchSerperFn` is an oracle parameter. -/
def searchWebExecute (searchSerperFn : SerperRequest → AbortSignal → SerperResponse)
    (query : String) (abortSignal : AbortSignal) : List SearchResult :=
  let results := searchSerperFn { q := query, num := 10 } abortSignal
  results.organic.map (fun result =>
    { title := result.title, link := result.link, snippet := result.snippet,
      date := result.date })

/-- C7: the search executor's output is fully determined by the provider's
response to the request `{q := query, num := 10}` with the step's
cancellation token: it has one record per organic result, in provider order,
each carrying exactly the source's title, link, snippet and optional date. -/
theorem c7_search_executor_maps_provider_results
    (searchSerperFn : SerperRequest → AbortSignal → SerperResponse)
    (query : String) (abortSignal : AbortSignal) :
    (searchWebExecute searchSerperFn query abortSignal).length =
      (searchSerperFn { q := query, num := 10 } abortSignal).organic.length ∧
    ∀ i : Nat,
      (searchWebExecute searchSerperFn query abortSignal)[i]? =
        ((searchSerperFn { q := query, num := 10 } abortSignal).organic[i]?).map
          (fun r =>
            { title := r.title, link := r.link, snippet := r.snippet,
              date := r.date }) := by
  exact ⟨List.length_map _ _, fun i => List.getElem?_map _ _ _⟩

/-- Modelled from the spec: the search call path (`searchSerper` in
`~/serper`, absent from the source tree) is the provider fetch wrapped by the
cache layer (spec §4.3: "this call path is wrapped by the Cache Layer so
repeated identical queries within the cache's TTL skip the network"). The
network fetch is the oracle `fetchFromProvider`; the query string is its own
serialization. -/
def searchSerperCached (fetchFromProvider : String → Except String SerperResponse)
    (ttl : Nat) (store : CacheStore SerperResponse) (now : Nat)
    (query : String) : CacheCallResult SerperResponse :=
  cacheWithRedis "serper" (fun q => q) ttl fetchFromProvider store now query

/-- C2: a repeated identical query within the cache TTL after a first
(successful, uncached) search returns the memoized response without invoking
the external search provider again. -/
theorem c2_search_cached_within_ttl
    (fetchFromProvider : String → Except String SerperResponse)
    (ttl : Nat) (store : CacheStore SerperResponse) (t1 t2 : Nat)
    (query : String) (resp : SerperResponse)
    (hmiss : cacheGet store ("serper" ++ ":" ++ query) t1 = none)
    (hfetch : fetchFromProvider query = .ok resp)
    (h12 : t1 ≤ t2) (httl : t2 < t1 + ttl) :
    (searchSerperCached fetchFromProvider ttl store t1 query).result =
      .ok resp ∧
    (searchSerperCached fetchFromProvider ttl
        (searchSerperCached fetchFromProvider ttl store t1 query).store t2
        query).result = .ok resp ∧
    (searchSerperCached fetchFromProvider ttl
        (searchSerperCached fetchFromProvider ttl store t1 query).store t2
        query).invokedFn = false := by
  have hhit :
      cacheGet
        (("serper" ++ ":" ++ query,
            { value := resp, expiresAt := t1 + ttl }) ::
          store) ("serper" ++ ":" ++ query) t2 = some resp := by
    unfold cacheGet
    rw [List.lookup_cons_self]
    simp only [Option.some_bind]
    exact if_pos httl
  simp only [searchSerperCached, cacheWithRedis, hmiss, hfetch, hhit]
  exact ⟨trivial, trivial, trivial⟩

/-- C4: when the underlying operation fails on a cache miss, the error
propagates, the store is unchanged, and a later call with identical
arguments invokes the real operation again. -/
theorem c4_failures_never_memoized {A V : Type} (opName : String)
    (serialize : A → String) (ttl : Nat) (fn : A → Except String V)
    (store : CacheStore V) (t1 : Nat) (args : A) (e : String)
    (hmiss : cacheGet store (opName ++ ":" ++ serialize args) t1 = none)
    (hfail : fn args = .error e) :
    (cacheWithRedis opName serialize ttl fn store t1 args).result =
      .error e ∧
    (cacheWithRedis opName serialize ttl fn store t1 args).store = store ∧
    ∀ t2 : Nat, t1 ≤ t2 →
      (cacheWithRedis opName serialize ttl fn
        (cacheWithRedis opName serialize ttl fn store t1 args).store t2
        args).invokedFn = true := by
  have hmiss2 := cacheGet_none_mono store (opName ++ ":" ++ serialize args)
  simp only [cacheWithRedis, hmiss, hfail]
  refine ⟨trivial, trivial, fun t2 h12 => ?_⟩
  simp only [cacheWithRedis, hmiss2 t1 t2 h12 hmiss, hfail]

/- ============= Chat persistence (src/unnamed/part_000, 155-258) ============= -/

/-- An inbound `Message` (the `ai` package shape used by the queries):
id, role, and string content. -/
structure Msg where
  id : String
  role : String
  content : String
deriving DecidableEq

/-- A row of the `chats` table (the columns the queries read or write). -/
structure ChatRow where
  id : String
  userId : String
  title : String
deriving DecidableEq

/-- A row of the `messages` table: `chatId`, `role`, `parts` (holding the
message content) and the `order` column. DB-generated message ids are
omitted (no query under verification depends on them). -/
structure MessageRow where
  chatId : String
  role : String
  parts : String
  order : Nat
deriving DecidableEq

/-- The database: the `chats` and `messages` tables. -/
structure DbState where
  chats : List ChatRow
  messages : List MessageRow
deriving DecidableEq

/-- The rows built by `upsertChat`'s
`messageList.map((message, index) => ({chatId, role, parts: content, order: index}))`,
with the running index made explicit. -/
def messageValues (chatId : String) : Nat → List Msg → List MessageRow
  | _, [] => []
  | i, m :: rest =>
    { chatId := chatId, role := m.role, parts := m.content, order := i } ::
      messageValues chatId (i + 1) rest

/-- `upsertChat` (part_000 lines 161-213). Returns the database afterwards
together with `some errorMessage` when the ownership check throws (the check
precedes every mutation, so the state returned with an error is the input
state). Mutations, in source order: delete the chat's messages when the chat
exists, insert-or-update the chat row (`onConflictDoUpdate` refreshes only
the title, never `userId`), then insert the new message rows when the list
is non-empty. -/
def upsertChat (db : DbState) (userId chatId title : String)
    (messageList : List Msg) : DbState × Option String :=
  match (db.chats.filter (fun c => c.id == chatId)).take 1 with
  | existing :: _ =>
    if existing.userId ≠ userId then
      (db, some "Chat does not belong to the logged in user")
    else
      let afterDelete : DbState :=
        { db with
          messages := db.messages.filter (fun m => !(m.chatId == chatId)) }
      let afterChats : DbState :=
        { afterDelete with
          chats := afterDelete.chats.map (fun c =>
            if c.id == chatId then { c with title := title } else c) }
      if messageList.length > 0 then
        ({ afterChats with
            messages :=
              afterChats.messages ++ messageValues chatId 0 messageList },
          none)
      else
        (afterChats, none)
  | [] =>
    let afterChats : DbState :=
      { db with
        chats := db.chats ++ [{ id := chatId, userId := userId, title := title }] }
    if messageList.length > 0 then
      ({ afterChats with
          messages :=
            afterChats.messages ++ messageValues chatId 0 messageList },
        none)
    else
      (afterChats, none)

/-- A message as reconstructed by `getChat` (role and content; the
DB-generated id is omitted). -/
structure StoredMsg where
  role : String
  content : String
deriving DecidableEq

/-- The conversation returned by `getChat`: the chat row spread together with
the ordered message list. -/
structure ChatWithMessages where
  id : String
  userId : String
  title : String
  messages : List StoredMsg
deriving DecidableEq

/-- `getChat` (part_000 lines 215-243): `null` when no chat row matches,
otherwise the chat row together with its messages ordered by the `order`
column (modelled by the stable `insertionSort`) and converted back to
role/content records. -/
def getChat (db : DbState) (chatId : String) : Option ChatWithMessages :=
  match (db.chats.filter (fun c => c.id == chatId)).take 1 with
  | [] => none
  | chat :: _ =>
    let chatMessages :=
      List.insertionSort (fun a b => a.order ≤ b.order)
        (db.messages.filter (fun m => m.chatId == chatId))
    some
      { id := chat.id, userId := chat.userId, title := chat.title,
        messages :=
          chatMessages.map (fun m => { role := m.role, content := m.parts }) }

/-- C5: an upsert whose `userId` differs from the stored owning `userId` of
an existing chat throws `"Chat does not belong to the logged in user"` and,
since the ownership check precedes every deletion and insertion, leaves the
database (chat row and stored messages) unchanged. -/
theorem c5_upsert_rejects_foreign_user (db : DbState)
    (userId chatId title : String) (messageList : List Msg) (c : ChatRow)
    (hhead : (db.chats.filter (fun ch => ch.id == chatId)).take 1 = [c])
    (hne : c.userId ≠ userId) :
    upsertChat db userId chatId title messageList =
      (db, some "Chat does not belong to the logged in user") := by
  unfold upsertChat
  rw [hhead]
  exact if_pos hne

/-- Witness for C5: a chat owned by `alice` is upserted by `bob`; the call
fails and the database is returned unchanged. -/
theorem c5_upsert_rejects_foreign_user_witness :
    upsertChat
      { chats := [{ id := "chat1", userId := "alice", title := "t" }],
        messages := [] } "bob" "chat1" "t2"
      [{ id := "m1", role := "user", content := "hello" }] =
      ({ chats := [{ id := "chat1", userId := "alice", title := "t" }],
          messages := [] },
        some "Chat does not belong to the logged in user") :=
  c5_upsert_rejects_foreign_user
    { chats := [{ id := "chat1", userId := "alice", title := "t" }],
      messages := [] } "bob" "chat1" "t2"
    [{ id := "m1", role := "user", content := "hello" }]
    { id := "chat1", userId := "alice", title := "t" } (by decide) (by decide)

/-- Every row built by `messageValues` starting at index `i` has `order ≥ i`. -/
theorem messageValues_le_order (chatId : String) :
    ∀ (l : List Msg) (i : Nat), ∀ m ∈ messageValues chatId i l, i ≤ m.order := by
  intro l
  induction l with
  | nil => intro i m hm; simp [messageValues] at hm
  | cons a t ih =>
    intro i m hm
    rw [messageValues, List.mem_cons] at hm
    rcases hm with hm | hm
    · simp [hm]
    · exact Nat.le_of_succ_le (ih (i + 1) m hm)

/-- The rows built by `messageValues` are sorted by the `order` column. -/
theorem messageValues_sorted (chatId : String) :
    ∀ (l : List Msg) (i : Nat),
      List.Sorted (fun a b : MessageRow => a.order ≤ b.order)
        (messageValues chatId i l) := by
  intro l
  induction l with
  | nil => intro i; simp [messageValues, List.Sorted]
  | cons a t ih =>
    intro i
    rw [messageValues]
    refine List.Pairwise.cons ?_ (ih (i + 1))
    intro m hm
    exact Nat.le_of_succ_le (messageValues_le_order chatId t (i + 1) m hm)

/-- Every row built by `messageValues chatId` carries that `chatId`. -/
theorem messageValues_chatId (chatId : String) :
    ∀ (l : List Msg) (i : Nat), ∀ m ∈ messageValues chatId i l,
      m.chatId = chatId := by
  intro l
  induction l with
  | nil => intro i m hm; simp [messageValues] at hm
  | cons a t ih =>
    intro i m hm
    rw [messageValues, List.mem_cons] at hm
    rcases hm with hm | hm
    · simp [hm]
    · exact ih (i + 1) m hm

/-- Filtering the freshly inserted rows by their own `chatId` keeps them all. -/
theorem messageValues_filter_self (chatId : String) (l : List Msg) (i : Nat) :
    (messageValues chatId i l).filter (fun m => m.chatId == chatId) =
      messageValues chatId i l := by
  rw [List.filter_eq_self]
  intro m hm
  exact beq_iff_eq.mpr (messageValues_chatId chatId l i m hm)

/-- Converting the inserted rows back to role/content records recovers the
role/content projection of the input message list. -/
theorem messageValues_map_back (chatId : String) :
    ∀ (l : List Msg) (i : Nat),
      (messageValues chatId i l).map
        (fun m => ({ role := m.role, content := m.parts } : StoredMsg)) =
        l.map (fun m => ({ role := m.role, content := m.content } : StoredMsg)) := by
  intro l
  induction l with
  | nil => intro i; rfl
  | cons a t ih =>
    intro i
    rw [messageValues, List.map_cons, List.map_cons, ih (i + 1)]

/-- Rows surviving a delete by `chatId` never match that `chatId` again. -/
theorem filter_not_self {α : Type} (p : α → Bool) (l : List α) :
    (l.filter (fun a => !(p a))).filter p = [] := by
  induction l with
  | nil => rfl
  | cons a t ih => by_cases h : p a <;> simp [List.filter_cons, h, ih]

/-- When a chat row matching `chatId` exists, `getChat` returns a
conversation whose message list is the `order`-sorted, converted filter of
the `messages` table. -/
theorem getChat_of_filter_ne_nil (db : DbState) (chatId : String)
    (h : db.chats.filter (fun c => c.id == chatId) ≠ []) :
    ∃ conv : ChatWithMessages,
      getChat db chatId = some conv ∧
      conv.messages =
        (List.insertionSort (fun a b => a.order ≤ b.order)
            (db.messages.filter (fun m => m.chatId == chatId))).map
          (fun m => { role := m.role, content := m.parts }) := by
  unfold getChat
  cases hf : db.chats.filter (fun c => c.id == chatId) with
  | nil => exact absurd hf h
  | cons chat rest =>
    rw [List.take_succ_cons, List.take_zero]
    exact ⟨_, rfl, rfl⟩

/-- Under the foreign-key invariant, if no chat row matches `chatId`, then no
message row carries `chatId`. -/
theorem no_messages_of_no_chat (db : DbState) (chatId : String)
    (hwf : ∀ m ∈ db.messages, ∃ c ∈ db.chats, c.id = m.chatId)
    (hf : db.chats.filter (fun c => c.id == chatId) = []) :
    db.messages.filter (fun m => m.chatId == chatId) = [] := by
  have hnochat := List.filter_eq_nil_iff.mp hf
  rw [List.filter_eq_nil_iff]
  intro m hm hbeq
  obtain ⟨c, hc, hcid⟩ := hwf m hm
  exact hnochat c hc (by rw [hcid]; exact hbeq)

/-- C6: after a successful `upsertChat`, `getChat` returns a conversation
whose message list equals the upserted list's role/content projection in the
same order (all prior messages for the chat having been replaced); and
`getChat` of a chatId no chat row carries returns `null`. The hypothesis is
the `messages.chatId → chats.id` foreign-key invariant of the schema. -/
theorem c6_upsert_then_get_roundtrip (db : DbState)
    (userId chatId title : String) (messageList : List Msg)
    (hwf : ∀ m ∈ db.messages, ∃ c ∈ db.chats, c.id = m.chatId) :
    (∀ db' : DbState,
      upsertChat db userId chatId title messageList = (db', none) →
      ∃ conv : ChatWithMessages,
        getChat db' chatId = some conv ∧
        conv.messages =
          messageList.map (fun m =>
            { role := m.role, content := m.content })) ∧
    ((∀ c ∈ db.chats, c.id ≠ chatId) → getChat db chatId = none) := by
  constructor
  · intro db' hup
    cases hf : db.chats.filter (fun c => c.id == chatId) with
    | cons existing rest =>
      have hmemfil : existing ∈ db.chats.filter (fun c => c.id == chatId) := by
        rw [hf]; exact List.mem_cons_self existing rest
      have hmem := List.mem_of_mem_filter hmemfil
      have hpred : (existing.id == chatId) = true :=
        (List.mem_filter.mp hmemfil).2
      have hnenil : (db.chats.map (fun c : ChatRow =>
          if c.id == chatId then { c with title := title } else c)).filter
            (fun c => c.id == chatId) ≠ [] := by
        refine List.ne_nil_of_mem (a :=
          if existing.id == chatId then
            { existing with title := title } else existing) ?_
        rw [List.mem_filter]
        constructor
        · exact List.mem_map_of_mem _ hmem
        · rw [if_pos hpred]
          exact hpred
      simp only [upsertChat, hf, List.take_succ_cons, List.take_zero] at hup
      by_cases howner : existing.userId = userId
      · rw [if_neg (not_not_intro howner)] at hup
        by_cases hlen : messageList.length > 0
        · rw [if_pos hlen] at hup
          have hdb : _ = db' := congrArg Prod.fst hup
          subst hdb
          obtain ⟨conv, hconv, hmsgs⟩ :=
            getChat_of_filter_ne_nil
              { chats := db.chats.map (fun c : ChatRow =>
                  if c.id == chatId then { c with title := title } else c),
                messages :=
                  db.messages.filter (fun m => !(m.chatId == chatId)) ++
                    messageValues chatId 0 messageList }
              chatId hnenil
          refine ⟨conv, hconv, ?_⟩
          rw [hmsgs]
          simp only [List.filter_append, filter_not_self,
            messageValues_filter_self, List.nil_append]
          rw [List.Sorted.insertionSort_eq
              (messageValues_sorted chatId messageList 0),
            messageValues_map_back]
        · rw [if_neg hlen] at hup
          have hnil : messageList = [] :=
            List.length_eq_zero.mp (Nat.eq_zero_of_not_pos hlen)
          subst hnil
          have hdb : _ = db' := congrArg Prod.fst hup
          subst hdb
          obtain ⟨conv, hconv, hmsgs⟩ :=
            getChat_of_filter_ne_nil
              { chats := db.chats.map (fun c : ChatRow =>
                  if c.id == chatId then { c with title := title } else c),
                messages :=
                  db.messages.filter (fun m => !(m.chatId == chatId)) }
              chatId hnenil
          refine ⟨conv, hconv, ?_⟩
          rw [hmsgs]
          simp only [filter_not_self]
          rfl
      · rw [if_pos howner] at hup
        exact absurd (congrArg Prod.snd hup) (by simp)
    | nil =>
      simp only [upsertChat, hf, List.take_nil] at hup
      have hmsgnil := no_messages_of_no_chat db chatId hwf hf
      have hnenil : ((db.chats ++
          [({ id := chatId, userId := userId, title := title } : ChatRow)]).filter
            (fun c => c.id == chatId)) ≠ [] := by
        refine List.ne_nil_of_mem
          (a := { id := chatId, userId := userId, title := title }) ?_
        rw [List.mem_filter]
        refine ⟨List.mem_append_right _ (List.mem_singleton.mpr rfl), ?_⟩
        exact beq_self_eq_true chatId
      by_cases hlen : messageList.length > 0
      · rw [if_pos hlen] at hup
        have hdb : _ = db' := congrArg Prod.fst hup
        subst hdb
        obtain ⟨conv, hconv, hmsgs⟩ :=
          getChat_of_filter_ne_nil
            { chats := db.chats ++
                [{ id := chatId, userId := userId, title := title }],
              messages := db.messages ++ messageValues chatId 0 messageList }
            chatId hnenil
        refine ⟨conv, hconv, ?_⟩
        rw [hmsgs]
        simp only [List.filter_append, hmsgnil,
          messageValues_filter_self, List.nil_append]
        rw [List.Sorted.insertionSort_eq
            (messageValues_sorted chatId messageList 0),
          messageValues_map_back]
      · rw [if_neg hlen] at hup
        have hnil : messageList = [] :=
          List.length_eq_zero.mp (Nat.eq_zero_of_not_pos hlen)
        subst hnil
        have hdb : _ = db' := congrArg Prod.fst hup
        subst hdb
        obtain ⟨conv, hconv, hmsgs⟩ :=
          getChat_of_filter_ne_nil
            { chats := db.chats ++
                [{ id := chatId, userId := userId, title := title }],
              messages := db.messages }
            chatId hnenil
        refine ⟨conv, hconv, ?_⟩
        rw [hmsgs]
        simp only [hmsgnil]
        rfl
  · intro hno
    have hf : db.chats.filter (fun c => c.id == chatId) = [] := by
      rw [List.filter_eq_nil_iff]
      intro c hc hbeq
      exact hno c hc (beq_iff_eq.mp hbeq)
    unfold getChat
    rw [hf]
    rfl

/-- A provider probe for the C2 witness: always returns an empty organic
list. -/
def c2FetchProbe : String → Except String SerperResponse :=
  fun _ => .ok { organic := [] }

/-- Witness for C2: a concrete second identical query one tick later hits
the cache and does not invoke the provider. -/
theorem c2_search_cached_within_ttl_witness :
    (searchSerperCached c2FetchProbe 60 ([] : CacheStore SerperResponse) 0
        "lean").result = .ok { organic := [] } ∧
    (searchSerperCached c2FetchProbe 60
        (searchSerperCached c2FetchProbe 60 ([] : CacheStore SerperResponse) 0
          "lean").store 1 "lean").result = .ok { organic := [] } ∧
    (searchSerperCached c2FetchProbe 60
        (searchSerperCached c2FetchProbe 60 ([] : CacheStore SerperResponse) 0
          "lean").store 1 "lean").invokedFn = false :=
  c2_search_cached_within_ttl c2FetchProbe 60 [] 0 1 "lean" { organic := [] }
    (by rfl) (by rfl) (by decide) (by decide)

/-- An operation for the C4 witness: always fails. -/
def c4FnProbe : String → Except String String := fun _ => .error "boom"

/-- Witness for C4: a concrete failing operation propagates its error,
caches nothing, and is re-invoked on retry. -/
theorem c4_failures_never_memoized_witness :
    (cacheWithRedis "op" (fun a => a) 60 c4FnProbe
        ([] : CacheStore String) 0 "x").result = .error "boom" ∧
    (cacheWithRedis "op" (fun a => a) 60 c4FnProbe
        ([] : CacheStore String) 0 "x").store = [] ∧
    (cacheWithRedis "op" (fun a => a) 60 c4FnProbe
        (cacheWithRedis "op" (fun a => a) 60 c4FnProbe
          ([] : CacheStore String) 0 "x").store 1 "x").invokedFn = true := by
  obtain ⟨h1, h2, h3⟩ :=
    c4_failures_never_memoized "op" (fun a => a) 60 c4FnProbe [] 0 "x" "boom"
      (by rfl) (by rfl)
  exact ⟨h1, h2, h3 1 (by decide)⟩

/-- Witness for C6: upserting one message into an empty database and reading
it back returns exactly that message's role and content. -/
theorem c6_upsert_then_get_roundtrip_witness :
    ∃ conv : ChatWithMessages,
      getChat
        (upsertChat { chats := [], messages := [] } "alice" "c1" "t"
          [{ id := "m1", role := "user", content := "hi" }]).1 "c1" =
        some conv ∧
      conv.messages = [{ role := "user", content := "hi" }] := by
  obtain ⟨h1, h2⟩ :=
    c6_upsert_then_get_roundtrip { chats := [], messages := [] }
      "alice" "c1" "t" [{ id := "m1", role := "user", content := "hi" }]
      (by intro m hm; simp at hm)
  obtain ⟨conv, hc, hm⟩ := h1 _ (by rfl)
  exact ⟨conv, hc, by rw [hm]; rfl⟩

/- ====== Agent loop (spec §4.4; `streamText` call sites set maxSteps) ====== -/

/-- A tool call requested by the model in one step. -/
structure ToolCall where
  toolName : String
  args : String
deriving DecidableEq

/-- One transcript entry: user or assistant text, a tool call, or a tool
result appended after execution. -/
inductive TranscriptEntry where
  | userText (content : String)
  | assistantText (content : String)
  | toolCallEntry (toolName args : String)
  | toolResultEntry (toolName output : String)
deriving DecidableEq

/-- The model's raw output for one step: optional interleaved text plus
zero-or-more tool-call requests. -/
structure StepOutput where
  text : String
  toolCalls : List ToolCall
deriving DecidableEq

/-- The loop's outcome: how many generate/dispatch cycles ran, the text
returned as final, and whether the termination was reported as an error. -/
structure LoopResult where
  stepsUsed : Nat
  finalText : String
  errored : Bool
deriving DecidableEq

/-- Modelled from the spec: the transcript after one generate/dispatch
cycle whose step requested tool calls: the assistant text, then the
tool-call entries, then their results in call order, are appended. -/
def stepAppend (gen : List TranscriptEntry → StepOutput)
    (execTool : ToolCall → String) (transcript : List TranscriptEntry) :
    List TranscriptEntry :=
  let out := gen transcript
  transcript ++
    (TranscriptEntry.assistantText out.text ::
      (out.toolCalls.map (fun c =>
          TranscriptEntry.toolCallEntry c.toolName c.args) ++
        out.toolCalls.map (fun c =>
          TranscriptEntry.toolResultEntry c.toolName (execTool c))))

/-- Modelled from the spec: the step-bounded agent loop that `streamText`
(an external package whose call sites are in the route handlers) drives.
Per spec §4.4: each cycle invokes the model (`gen`) on the transcript; a
step with no tool calls terminates the loop with that step's text; otherwise
the tool calls are executed (`execTool`), their results appended to the
transcript in call order, and the loop continues; exhausting the step budget
stops the loop, returning the last generated text, not an error. -/
def agentLoopGo (gen : List TranscriptEntry → StepOutput)
    (execTool : ToolCall → String) :
    Nat → List TranscriptEntry → String → Nat → LoopResult
  | 0, _, lastText, stepsDone =>
    { stepsUsed := stepsDone, finalText := lastText, errored := false }
  | fuel + 1, transcript, _, stepsDone =>
    let out := gen transcript
    if out.toolCalls.isEmpty then
      { stepsUsed := stepsDone + 1, finalText := out.text, errored := false }
    else
      agentLoopGo gen execTool fuel (stepAppend gen execTool transcript)
        out.text (stepsDone + 1)

/-- Run the agent loop from the initial transcript with the given step
budget. -/
def runAgentLoop (gen : List TranscriptEntry → StepOutput)
    (execTool : ToolCall → String) (maxSteps : Nat)
    (transcript : List TranscriptEntry) : LoopResult :=
  agentLoopGo gen execTool maxSteps transcript "" 0

/-- The transcript seen by the generation of cycle `k` (0-based): the
initial transcript extended by the `k` preceding tool-dispatch cycles. -/
def loopTranscript (gen : List TranscriptEntry → StepOutput)
    (execTool : ToolCall → String) :
    Nat → List TranscriptEntry → List TranscriptEntry
  | 0, t => t
  | k + 1, t => loopTranscript gen execTool k (stepAppend gen execTool t)

/-- The step budget passed as `maxSteps: 10` by every `streamText` call site
(day-3 `route.ts` line 159, part_000 line 85, part_002 line 78). -/
def streamTextMaxSteps : Nat := 10

/-- The loop runs at most `stepsDone + fuel` cycles. -/
theorem agentLoopGo_stepsUsed_le (gen : List TranscriptEntry → StepOutput)
    (execTool : ToolCall → String) :
    ∀ (fuel : Nat) (t : List TranscriptEntry) (lastText : String)
      (stepsDone : Nat),
      (agentLoopGo gen execTool fuel t lastText stepsDone).stepsUsed ≤
        stepsDone + fuel := by
  intro fuel
  induction fuel with
  | zero => intro t lt d; simp [agentLoopGo]
  | succ f ih =>
    intro t lt d
    rw [agentLoopGo]
    by_cases he : (gen t).toolCalls.isEmpty
    · simp only [if_pos he]
      omega
    · simp only [if_neg he]
      calc (agentLoopGo gen execTool f _ (gen t).text (d + 1)).stepsUsed ≤
          (d + 1) + f := ih _ _ _
        _ = d + (f + 1) := by omega

/-- The loop never reports an error: neither text-only termination nor budget
exhaustion is an error. -/
theorem agentLoopGo_never_errors (gen : List TranscriptEntry → StepOutput)
    (execTool : ToolCall → String) :
    ∀ (fuel : Nat) (t : List TranscriptEntry) (lastText : String)
      (stepsDone : Nat),
      (agentLoopGo gen execTool fuel t lastText stepsDone).errored = false := by
  intro fuel
  induction fuel with
  | zero => intro t lt d; rfl
  | succ f ih =>
    intro t lt d
    rw [agentLoopGo]
    by_cases he : (gen t).toolCalls.isEmpty
    · simp only [if_pos he]
    · simp only [if_neg he]
      exact ih _ _ _

/-- With at least one cycle available, the loop's final text is the text of
the generation of its final executed cycle: the cycle of 0-based index `k`
where `stepsDone + k + 1` is the step count on return, over the transcript
that cycle saw. -/
theorem agentLoopGo_finalText_last (gen : List TranscriptEntry → StepOutput)
    (execTool : ToolCall → String) :
    ∀ (fuel : Nat) (t : List TranscriptEntry) (lastText : String)
      (stepsDone : Nat), 1 ≤ fuel →
      ∃ k : Nat,
        (agentLoopGo gen execTool fuel t lastText stepsDone).stepsUsed =
          stepsDone + k + 1 ∧
        (agentLoopGo gen execTool fuel t lastText stepsDone).finalText =
          (gen (loopTranscript gen execTool k t)).text := by
  intro fuel
  induction fuel with
  | zero => intro t lt d h; exact absurd h (by omega)
  | succ f ih =>
    intro t lt d _
    rw [agentLoopGo]
    by_cases he : (gen t).toolCalls.isEmpty
    · simp only [if_pos he]
      exact ⟨0, rfl, rfl⟩
    · simp only [if_neg he]
      cases f with
      | zero => exact ⟨0, rfl, rfl⟩
      | succ f2 =>
        obtain ⟨k, hk, hft⟩ :=
          ih (stepAppend gen execTool t) (gen t).text (d + 1) (by omega)
        refine ⟨k + 1, ?_, ?_⟩
        · rw [hk]
          omega
        · rw [hft]
          rfl

/-- When every generation requests at least one tool call, the loop runs all
of its budget. -/
theorem agentLoopGo_exhausts_budget (gen : List TranscriptEntry → StepOutput)
    (execTool : ToolCall → String)
    (htools : ∀ tr, (gen tr).toolCalls ≠ []) :
    ∀ (fuel : Nat) (t : List TranscriptEntry) (lastText : String)
      (stepsDone : Nat),
      (agentLoopGo gen execTool fuel t lastText stepsDone).stepsUsed =
        stepsDone + fuel := by
  intro fuel
  induction fuel with
  | zero => intro t lt d; rfl
  | succ f ih =>
    intro t lt d
    rw [agentLoopGo]
    rw [if_neg (by simp [htools t])]
    rw [ih]
    omega

/-- C8: the agent loop is configured with a step budget of exactly 10; it
performs at most 10 generate/dispatch cycles; termination (including budget
exhaustion) is never reported as an error; the final text is the text of the
generation of the last executed cycle (the cycle of index `k` where the loop
returns after `k + 1` cycles, over that cycle's transcript); and a model
that always requests tools uses exactly the 10 budgeted cycles, the final
text then being the tenth (last) generation's text. -/
theorem c8_step_budget_ten (gen : List TranscriptEntry → StepOutput)
    (execTool : ToolCall → String) (transcript : List TranscriptEntry) :
    streamTextMaxSteps = 10 ∧
    (runAgentLoop gen execTool streamTextMaxSteps transcript).stepsUsed ≤ 10 ∧
    (runAgentLoop gen execTool streamTextMaxSteps transcript).errored =
      false ∧
    (∃ k : Nat,
      (runAgentLoop gen execTool streamTextMaxSteps transcript).stepsUsed =
        k + 1 ∧
      (runAgentLoop gen execTool streamTextMaxSteps transcript).finalText =
        (gen (loopTranscript gen execTool k transcript)).text) ∧
    ((∀ tr, (gen tr).toolCalls ≠ []) →
      (runAgentLoop gen execTool streamTextMaxSteps transcript).stepsUsed =
        10 ∧
      (runAgentLoop gen execTool streamTextMaxSteps transcript).finalText =
        (gen (loopTranscript gen execTool 9 transcript)).text) := by
  refine ⟨rfl, ?_, ?_, ?_, ?_⟩
  · exact agentLoopGo_stepsUsed_le gen execTool 10 transcript "" 0
  · exact agentLoopGo_never_errors gen execTool 10 transcript "" 0
  · obtain ⟨k, hk, hft⟩ :=
      agentLoopGo_finalText_last gen execTool 10 transcript "" 0 (by omega)
    have hk2 : (runAgentLoop gen execTool streamTextMaxSteps
        transcript).stepsUsed = 0 + k + 1 := hk
    exact ⟨k, by omega, hft⟩
  · intro htools
    have hsteps :=
      agentLoopGo_exhausts_budget gen execTool htools 10 transcript "" 0
    have hs2 : (runAgentLoop gen execTool streamTextMaxSteps
        transcript).stepsUsed = 0 + 10 := hsteps
    obtain ⟨k, hk, hft⟩ :=
      agentLoopGo_finalText_last gen execTool 10 transcript "" 0 (by omega)
    have hk9 : k = 9 := by omega
    subst hk9
    exact ⟨by omega, hft⟩

/-- A model probe for the C8 witness: always requests one search call. -/
def c8Gen : List TranscriptEntry → StepOutput := fun _ =>
  { text := "searching", toolCalls := [{ toolName := "searchWeb", args := "q" }] }

/-- A tool executor probe for the C8 witness. -/
def c8Exec : ToolCall → String := fun _ => "result"

/-- Witness for C8: a model that always requests a tool call runs exactly 10
cycles under the configured budget, and the loop returns the tenth (last)
generation's text. -/
theorem c8_step_budget_ten_witness :
    (runAgentLoop c8Gen c8Exec streamTextMaxSteps []).stepsUsed = 10 ∧
    (runAgentLoop c8Gen c8Exec streamTextMaxSteps []).finalText =
      (c8Gen (loopTranscript c8Gen c8Exec 9 [])).text :=
  (c8_step_budget_ten c8Gen c8Exec []).2.2.2.2 (fun tr => by simp [c8Gen])

/- ========== Route handlers (part_000 24-154, day-3 route.ts 26-304, ========== 
   ========== and the day-2 handler part_002 15-137)                   ========== -/

/-- The authenticated session (the field the handlers read). -/
structure Session where
  userId : String
deriving DecidableEq

/-- The parsed request body of the chatId-based handlers. -/
structure ChatBody where
  messages : List Msg
  chatId : String
  isNewChat : Bool
deriving DecidableEq

/-- Observable side effects of a handler run: calls into `upsertChat`, the
NEW_CHAT_CREATED stream event, and the model invocation with its configured
step budget. -/
inductive Effect where
  | upsertCall (userId chatId title : String) (msgs : List Msg)
  | streamNewChatCreated (chatId : String)
  | invokeModel (maxSteps : Nat)
deriving DecidableEq

/-- A handler run's outcome: HTTP status, response body, the ordered effect
trace, and the database afterwards. -/
structure HandlerResult where
  status : Nat
  body : String
  effects : List Effect
  db : DbState
deriving DecidableEq

/-- The title computed at both persisting call sites of the chatId-based
handlers (part_000 lines 59 and 138; day-3 route.ts lines 72 and 271):
`content.slice(0, 50) + "..."`. -/
def chatTitle (content : String) : String := sliceTo content 50 ++ "..."

/-- The `createDataStreamResponse` execute phase of the chatId-based handlers
(part_000 lines 72-148; day-3 route.ts lines 136-298): emit NEW_CHAT_CREATED
for a new chat, invoke the model with `maxSteps: 10`, and in `onFinish` merge
the response messages (`appendResponseMessages`, modelled as list append) and
upsert the full history under the title derived from the last inbound
message; `onFinish` returns early when there is no last message. -/
def streamPhase (session : Session) (chatId : String) (messages : List Msg)
    (isNewChat : Bool) (responseMsgs : List Msg) (db : DbState)
    (eff0 : List Effect) : HandlerResult :=
  let eff1 := eff0 ++
    (if isNewChat then [Effect.streamNewChatCreated chatId] else []) ++
    [Effect.invokeModel streamTextMaxSteps]
  let updatedMessages := messages ++ responseMsgs
  match messages.getLast? with
  | none => { status := 200, body := "", effects := eff1, db := db }
  | some lastMessage =>
    let title := chatTitle lastMessage.content
    { status := 200, body := "",
      effects := eff1 ++
        [Effect.upsertCall session.userId chatId title updatedMessages],
      db := (upsertChat db session.userId chatId title updatedMessages).1 }

/-- The POST handler shared by part_000 (lines 24-154) and the day-3
route.ts (lines 26-304; identical in the modelled control flow): 401 without
a session; 400 on an empty messages array; when `isNewChat`, create the chat
via `upsertChat` (a thrown ownership error surfacing as a 500 response);
otherwise verify ownership (404 on a missing or foreign chat); then run the
streaming phase. -/
def POST (sessionOpt : Option Session) (body : ChatBody) (db : DbState)
    (responseMsgs : List Msg) : HandlerResult :=
  match sessionOpt with
  | none => { status := 401, body := "Unauthorized", effects := [], db := db }
  | some session =>
    if body.messages.length = 0 then
      { status := 400, body := "No messages provided", effects := [],
        db := db }
    else
      let lastMessage :=
        body.messages.getLastD { id := "", role := "", content := "" }
      if body.isNewChat then
        let title := chatTitle lastMessage.content
        match upsertChat db session.userId body.chatId title body.messages with
        | (db1, some err) =>
          { status := 500, body := err,
            effects :=
              [Effect.upsertCall session.userId body.chatId title
                body.messages],
            db := db1 }
        | (db1, none) =>
          streamPhase session body.chatId body.messages true responseMsgs db1
            [Effect.upsertCall session.userId body.chatId title body.messages]
      else
        match db.chats.find? (fun c => c.id == body.chatId) with
        | none =>
          { status := 404, body := "Chat not found or unauthorized",
            effects := [], db := db }
        | some chat =>
          if chat.userId ≠ session.userId then
            { status := 404, body := "Chat not found or unauthorized",
              effects := [], db := db }
          else
            streamPhase session body.chatId body.messages false responseMsgs
              db []

/-- The title computed by the day-2 handler (part_002 lines 36-38 and
114-116): the first 100 characters, with `"..."` appended only when the
content is longer than 100 characters. -/
def day2Title (content : String) : String :=
  sliceTo content 100 ++ (if content.length > 100 then "..." else "")

/-- The `createDataStreamResponse` execute phase of the day-2 handler
(part_002 lines 49-131): NEW_CHAT_CREATED when no chatId was provided, the
model invocation with `maxSteps: 10`, and the `onFinish` save under
`day2Title` (skipped when there is no last message; save errors are caught
and only logged). -/
def day2Stream (session : Session) (finalChatId : String)
    (messages : List Msg) (isNewChat : Bool) (responseMsgs : List Msg)
    (db : DbState) (eff0 : List Effect) : HandlerResult :=
  let eff1 := eff0 ++
    (if isNewChat then [Effect.streamNewChatCreated finalChatId] else []) ++
    [Effect.invokeModel streamTextMaxSteps]
  let updatedMessages := messages ++ responseMsgs
  match messages.getLast? with
  | none => { status := 200, body := "", effects := eff1, db := db }
  | some userMessage =>
    let title := day2Title userMessage.content
    { status := 200, body := "",
      effects := eff1 ++
        [Effect.upsertCall session.userId finalChatId title updatedMessages],
      db := (upsertChat db session.userId finalChatId title updatedMessages).1 }

/-- The day-2 POST handler (part_002 lines 15-137): 401 without a session;
no empty-messages check; when no `chatId` was provided, create a fresh chat
(`freshId` stands for `crypto.randomUUID()`) under `day2Title` provided a
last message exists; then run the streaming phase. -/
def day2POST (sessionOpt : Option Session) (messages : List Msg)
    (chatIdOpt : Option String) (freshId : String) (responseMsgs : List Msg)
    (db : DbState) : HandlerResult :=
  match sessionOpt with
  | none => { status := 401, body := "Unauthorized", effects := [], db := db }
  | some session =>
    match chatIdOpt with
    | some chatId =>
      day2Stream session chatId messages false responseMsgs db []
    | none =>
      match messages.getLast? with
      | none => day2Stream session freshId messages true responseMsgs db []
      | some userMessage =>
        let title := day2Title userMessage.content
        match upsertChat db session.userId freshId title messages with
        | (db1, some err) =>
          { status := 500, body := err,
            effects :=
              [Effect.upsertCall session.userId freshId title messages],
            db := db1 }
        | (db1, none) =>
          day2Stream session freshId messages true responseMsgs db1
            [Effect.upsertCall session.userId freshId title messages]

/-- C9 counterexample: the day-2 handler is a persisting chat route handler
(it saves via `upsertChat`), yet an authenticated request with an empty
messages array is answered 200 and streamed, not 400 "No messages
provided". -/
theorem c9_counterexample_day2_no_empty_check :
    (day2POST (some { userId := "alice" }) [] (some "chat1") "fresh" []
        { chats := [], messages := [] }).status = 200 ∧
    (day2POST (some { userId := "alice" }) [] (some "chat1") "fresh" []
        { chats := [], messages := [] }).status ≠ 400 ∧
    (day2POST (some { userId := "alice" }) [] (some "chat1") "fresh" []
        { chats := [], messages := [] }).body ≠ "No messages provided" := by
  refine ⟨rfl, by decide, by decide⟩

/-- C9 (amended to the chatId-based persisting handlers, part_000 and the
day-3 route): an authenticated POST whose messages array is empty returns
400 with body "No messages provided" and an empty effect trace — no chat is
created or verified, the model is not invoked, and the database is
untouched. -/
theorem c9_empty_messages_rejected (session : Session) (body : ChatBody)
    (db : DbState) (responseMsgs : List Msg)
    (hempty : body.messages = []) :
    POST (some session) body db responseMsgs =
      { status := 400, body := "No messages provided", effects := [],
        db := db } := by
  unfold POST
  rw [hempty]
  rfl

/-- Witness for C9 (amended): a concrete empty-messages request is rejected
with 400 and no effects. -/
theorem c9_empty_messages_rejected_witness :
    POST (some { userId := "alice" })
        { messages := [], chatId := "c1", isNewChat := true }
        { chats := [], messages := [] } [] =
      { status := 400, body := "No messages provided", effects := [],
        db := { chats := [], messages := [] } } :=
  c9_empty_messages_rejected { userId := "alice" }
    { messages := [], chatId := "c1", isNewChat := true }
    { chats := [], messages := [] } [] rfl

/-- C10 counterexample: the day-2 persisting handler passes `upsertChat` the
title "hi" for a last inbound message whose content is "hi" — not the
50-character prefix followed by "..." ("hi...") the claim prescribes for
every persisting chat route handler. -/
theorem c10_counterexample_day2_title :
    Effect.upsertCall "alice" "new1" "hi"
        [{ id := "m1", role := "user", content := "hi" }] ∈
      (day2POST (some { userId := "alice" })
          [{ id := "m1", role := "user", content := "hi" }] none "new1" []
          { chats := [], messages := [] }).effects ∧
    day2Title "hi" = "hi" ∧
    day2Title "hi" ≠ chatTitle "hi" ∧
    chatTitle "hi" = "hi..." := by
  refine ⟨by decide, by decide, by decide, by decide⟩

/-- The slice keeps a short string whole, so the title of content of at most
50 characters is the content itself followed by "...". -/
theorem chatTitle_short (s : String) (h : s.length ≤ 50) :
    chatTitle s = s ++ "..." := by
  unfold chatTitle sliceTo
  congr 1
  cases s with
  | mk data =>
    congr 1
    exact List.take_of_length_le h

/-- C10 (amended to the chatId-based persisting handlers, part_000 and the
day-3 route): every title these handlers pass to `upsertChat` — when
creating a new chat and when saving the finished turn — is the first 50
characters of the last inbound message's content followed by "...", the
"..." appended even when the content is 50 characters or shorter. -/
theorem c10_title_is_slice50_dots (session : Session) (body : ChatBody)
    (db : DbState) (responseMsgs : List Msg)
    (hne : body.messages ≠ []) (last : Msg)
    (hlast : body.messages.getLast? = some last) :
    (∀ u c t m,
      Effect.upsertCall u c t m ∈
          (POST (some session) body db responseMsgs).effects →
        t = chatTitle last.content) ∧
    (last.content.length ≤ 50 →
      chatTitle last.content = last.content ++ "...") := by
  refine ⟨?_, chatTitle_short last.content⟩
  intro u c t m hm
  rw [POST] at hm
  rw [if_neg (fun h => hne (List.length_eq_zero.mp h))] at hm
  rw [List.getLastD_eq_getLast?, hlast] at hm
  simp only [Option.getD_some] at hm
  by_cases hnew : body.isNewChat
  · rw [if_pos hnew] at hm
    rcases hu : upsertChat db session.userId body.chatId
        (chatTitle last.content) body.messages with ⟨db1, err⟩
    rw [hu] at hm
    cases err with
    | some e =>
      simp only [List.mem_singleton] at hm
      obtain ⟨-, -, ht, -⟩ := Effect.upsertCall.injEq .. |>.mp hm
      exact ht
    | none =>
      simp only [streamPhase] at hm
      rw [hlast] at hm
      simp at hm
      rcases hm with hm | hm
      · exact hm.2.2.1
      · exact hm.2.2.1
  · rw [if_neg hnew] at hm
    cases hfind : db.chats.find? (fun c => c.id == body.chatId) with
    | none =>
      rw [hfind] at hm
      simp at hm
    | some chat =>
      rw [hfind] at hm
      simp only [ne_eq] at hm
      by_cases hown : chat.userId = session.userId
      · rw [if_neg (not_not_intro hown)] at hm
        rw [streamPhase] at hm
        rw [hlast] at hm
        simp at hm
        exact hm.2.2.1
      · rw [if_pos hown] at hm
        simp at hm

/-- Witness for C10 (amended): on a concrete new-chat request with content
"hi", the title recorded in the handler's upsert effect equals
`chatTitle "hi"`, which is "hi" ++ "..." despite the short content. -/
theorem c10_title_is_slice50_dots_witness :
    "hi..." = chatTitle "hi" ∧ chatTitle "hi" = "hi" ++ "..." := by
  obtain ⟨h1, h2⟩ :=
    c10_title_is_slice50_dots { userId := "alice" }
      { messages := [{ id := "m1", role := "user", content := "hi" }],
        chatId := "c1", isNewChat := true }
      { chats := [], messages := [] } [] (by decide)
      { id := "m1", role := "user", content := "hi" } rfl
  refine ⟨h1 "alice" "c1" "hi..."
    ([{ id := "m1", role := "user", content := "hi" }] ++ []) ?_,
    h2 (by decide)⟩
  decide
